import Mathlib

/-!
# fc-desafio: the quote server and its client

A shallow embedding of `cotacao/server/main.go` and `cotacao/client/main.go`.

Time is an absolute instant in nanoseconds (`Nat`), the unit of Go's
`time.Duration`.  Everything a function reads from outside the program (the
network, the database driver, the connection of the response writer, the file
system) is an explicit argument, so each function below is a plain total
function of its inputs.
-/

namespace Cotacao

/-! ## Package `time` -/

/-- Go's `time.Millisecond`, in nanoseconds. -/
def Millisecond : Nat := 1000000

/-! ## Package `context` -/

/-- The two errors a context reports: `context.Canceled` and
`context.DeadlineExceeded`. -/
inductive CtxErr where
  | Canceled
  | DeadlineExceeded
  deriving DecidableEq, Repr

/-- A context as the two programs use it: an optional absolute expiry instant
and the instant (if any) at which the context is cancelled from outside, as the
request context of a server is when the caller disconnects. -/
structure Context where
  deadline : Option Nat
  canceledAt : Option Nat
  deriving DecidableEq, Repr

/-- Go's `context.Background()`: no deadline, never cancelled. -/
def Background : Context := { deadline := none, canceledAt := none }

/-- Go's `context.WithTimeout(parent, d)` called at instant `now`: the child
expires at `now + d` or with the parent, whichever comes first, and is cancelled
when the parent is. -/
def WithTimeout (parent : Context) (now d : Nat) : Context :=
  { deadline := some (match parent.deadline with
      | some p => min p (now + d)
      | none => now + d)
    canceledAt := parent.canceledAt }

/-- Go's `ctx.Err()` read at instant `t`: `nil` while the context is live,
afterwards the error of whichever event ended it first (the value never changes
once set).  A deadline and a cancellation at the same instant resolve to the
deadline. -/
def Context.Err (c : Context) (t : Nat) : Option CtxErr :=
  match c.deadline, c.canceledAt with
  | some d, some k =>
    if d ≤ k then (if d ≤ t then some .DeadlineExceeded else none)
    else (if k ≤ t then some .Canceled else none)
  | some d, none => if d ≤ t then some .DeadlineExceeded else none
  | none, some k => if k ≤ t then some .Canceled else none
  | none, none => none

/-- The instant at which the context ended, for a caller blocked on it since
`now` and found ended at `t`. -/
def Context.endedAt (c : Context) (now t : Nat) : Nat :=
  match c.deadline, c.canceledAt with
  | some d, some k => max now (min d k)
  | some d, none => max now d
  | none, some k => max now k
  | none, none => t

/-! ## Errors -/

/-- Go `error` values, as far as the two programs build or receive them. -/
inductive Error where
  /-- The error of a context: `context.Canceled` or `context.DeadlineExceeded`. -/
  | ctx (e : CtxErr)
  /-- An error produced inside a library (net, encoding/json, database/sql, os),
  known by its message only. -/
  | lib (msg : String)
  /-- The value of `fmt.Errorf(msg)` with no `%w` verb. -/
  | errorf (msg : String)
  /-- The value of `fmt.Errorf(pre ++ "%w", inner)`. -/
  | wrap (pre : String) (inner : Error)
  /-- The `*url.Error` with which `http.Client.Do` reports a failure. -/
  | url (op target : String) (inner : Error)
  deriving DecidableEq, Repr

/-- The text of `context.Canceled` and of `context.DeadlineExceeded`. -/
def CtxErr.text : CtxErr → String
  | .Canceled => "context canceled"
  | .DeadlineExceeded => "context deadline exceeded"

/-- Go's `err.Error()`, the message of an error. -/
def Error.text : Error → String
  | .ctx e => e.text
  | .lib msg => msg
  | .errorf msg => msg
  | .wrap pre inner => pre ++ inner.text
  | .url op target inner => op ++ " \"" ++ target ++ "\": " ++ inner.text

/-- Go's `errors.Is(err, target)` for a context error `target`: follows the
chain of wrapped errors. -/
def Error.Is : Error → CtxErr → Bool
  | .ctx e, target => e == target
  | .lib _, _ => false
  | .errorf _, _ => false
  | .wrap _ inner, target => inner.Is target
  | .url _ _ inner, target => inner.Is target

/-! ## Package `net/http`, client side -/

/-- Go's `http.StatusOK`. -/
def StatusOK : Nat := 200
/-- Go's `http.StatusRequestTimeout`. -/
def StatusRequestTimeout : Nat := 408
/-- Go's `http.StatusInternalServerError`. -/
def StatusInternalServerError : Nat := 500

/-- The body of a response as `json.NewDecoder(resp.Body).Decode(&v)` meets it:
`latency` nanoseconds after the header the decoder has read what it needs, and
`decoded` is then its verdict, the decoded value or the message of a decoding
error.  A JSON object without the wanted field decodes to the zero value. -/
structure Body (α : Type) where
  latency : Nat
  decoded : Except String α

/-- What the peer of an outgoing request does when nothing cuts the call short:
the call fails in the transport after `latency` nanoseconds (connection refused,
DNS failure), or a response header with `status` arrives after `latency`
nanoseconds, followed by the body.  A peer that never answers is, for a context
with a deadline, a peer that answers after the deadline. -/
inductive Peer (α : Type) where
  | fails (latency : Nat) (msg : String)
  | responds (latency : Nat) (status : Nat) (body : Body α)

/-- Outcome of `client.Do(req)`, with the instant at which it returns. -/
inductive DoResult (α : Type) where
  | err (e : Error) (t : Nat)
  | resp (status : Nat) (body : Body α) (t : Nat)

/-- Go's `client.Do(req)` for a GET request to `target` carrying context `ctx`,
issued at instant `now`: when the context has ended by the time the peer would
answer, the call returns the context's error inside a `*url.Error`; an answer
that arrives at the very instant the context ends loses to the context. -/
def Do {α : Type} (ctx : Context) (now : Nat) (target : String) (peer : Peer α) :
    DoResult α :=
  match peer with
  | .fails latency msg =>
    match ctx.Err (now + latency) with
    | some e => .err (.url "Get" target (.ctx e)) (ctx.endedAt now (now + latency))
    | none => .err (.url "Get" target (.lib msg)) (now + latency)
  | .responds latency status body =>
    match ctx.Err (now + latency) with
    | some e => .err (.url "Get" target (.ctx e)) (ctx.endedAt now (now + latency))
    | none => .resp status body (now + latency)

/-- Go's `json.NewDecoder(resp.Body).Decode(&v)` on the body of a response whose
header arrived at instant `t`: reading the body of a request whose context has
ended fails with the context's error. -/
def Decode {α : Type} (ctx : Context) (t : Nat) (body : Body α) : Except Error α × Nat :=
  match ctx.Err (t + body.latency) with
  | some e => (.error (.ctx e), ctx.endedAt t (t + body.latency))
  | none =>
    match body.decoded with
    | .error msg => (.error (.lib msg), t + body.latency)
    | .ok v => (.ok v, t + body.latency)

/-! ## Package `net/http`, server side -/

/-- Go's `http.Header`, as a list of key and value. -/
abbrev Header := List (String × String)

/-- Go's `h.Set(key, value)`: the value replaces whatever the key held. -/
def Header.Set (h : Header) (key value : String) : Header :=
  (key, value) :: h.filter (fun kv => kv.1 != key)

/-- The `http.ResponseWriter` of one request.  `header` is the map the handler
edits through `w.Header()`; the first `WriteHeader` commits the status line and
a snapshot of that map (`status`, `sent`); `body` is what the successful
`Write` calls have sent.  `faults` is the connection: the outcome of each
successive `Write`, `true` for a write that fails, success once the list is
used up. -/
structure ResponseWriter where
  header : Header
  wroteHeader : Bool
  status : Nat
  sent : Header
  body : String
  faults : List Bool
  deriving DecidableEq, Repr

/-- The writer a handler is given: nothing set, nothing sent. -/
def ResponseWriter.new (faults : List Bool) : ResponseWriter :=
  { header := [], wroteHeader := false, status := 0, sent := [], body := "", faults := faults }

/-- Go's `w.WriteHeader(code)`: the first call commits the status and the
header; a later call is superfluous and changes nothing. -/
def ResponseWriter.WriteHeader (w : ResponseWriter) (code : Nat) : ResponseWriter :=
  if w.wroteHeader then w
  else { w with wroteHeader := true, status := code, sent := w.header }

/-- Go's `w.Write(data)`: commits status 200 first when no header was written
yet, then sends the data unless the connection fails. -/
def ResponseWriter.Write (w : ResponseWriter) (data : String) :
    ResponseWriter × Option Error :=
  let w := if w.wroteHeader then w else w.WriteHeader StatusOK
  match w.faults with
  | true :: rest => ({ w with faults := rest }, some (.lib "write: broken pipe"))
  | false :: rest => ({ w with body := w.body ++ data, faults := rest }, none)
  | [] => ({ w with body := w.body ++ data }, none)

/-- Go's `http.Error(w, error, code)`: sets the plain-text headers, writes the
status, prints the message and a newline, ignoring the outcome of that write.
(Recent Go releases first delete a few headers, none of which the handler
sets.) -/
def httpError (w : ResponseWriter) (error : String) (code : Nat) : ResponseWriter :=
  let w := { w with header := w.header.Set "Content-Type" "text/plain; charset=utf-8" }
  let w := { w with header := w.header.Set "X-Content-Type-Options" "nosniff" }
  let w := w.WriteHeader code
  (w.Write (error ++ "\n")).1

/-- What the caller of the server receives: the committed status and header and
the bytes sent. -/
structure Response where
  status : Nat
  header : Header
  body : String
  deriving DecidableEq, Repr

/-- The response a writer has produced. -/
def ResponseWriter.response (w : ResponseWriter) : Response :=
  { status := w.status, header := w.sent, body := w.body }

namespace Server

/-! ## `cotacao/server/main.go` -/

/-- The anonymous struct of the field `USDBRL` of `APIResponse`. -/
structure APIResponseUSDBRL where
  Bid : String
  deriving DecidableEq, Repr

/-- Go's `type APIResponse struct`. -/
structure APIResponse where
  USDBRL : APIResponseUSDBRL
  deriving DecidableEq, Repr

/-- Go's `type ContacaoResponse struct`. -/
structure ContacaoResponse where
  Bid : String
  deriving DecidableEq, Repr

/-- The column `bid` of the rows of table `cotacoes`, oldest first (`id` and
`timestamp` are filled in by the database). -/
abbrev Table := List String

/-- Go's `db.ExecContext(ctx, query, args...)` of `database/sql` with the
driver behind it: given the context, the instant of the call, the query, its
argument and the table, it yields the error message (if the call fails) and the
table afterwards. -/
abbrev ExecContext := Context → Nat → String → String → Table → Option String × Table

/-- Everything outside `handleCotacao` that one request depends on. -/
structure World where
  /-- The value of `r.Context()`. -/
  ctx : Context
  /-- The instant at which the handler starts. -/
  start : Nat
  /-- The quote API. -/
  upstream : Peer APIResponse
  /-- The time `log.Printf` takes on line 83, between the return of
  `obterCotacaoAPI` and the reading of `ctxAPI.Err()`. -/
  logLatency : Nat
  /-- The time from the return of `obterCotacaoAPI` to the creation of `ctxDB`. -/
  persistLatency : Nat
  /-- The database handle `db`. -/
  exec : ExecContext
  /-- The table before the request. -/
  rows : Table
  /-- The connection to the caller, see `ResponseWriter.faults`. -/
  faults : List Bool
  /-- The rendering of a `ContacaoResponse` by `encoding/json`, or the message
  of its error. -/
  marshal : ContacaoResponse → Except String String

/-- Go's `json.NewEncoder(w).Encode(v)`: renders the value, and writes the
rendering followed by a newline. -/
def Encode (marshal : ContacaoResponse → Except String String) (w : ResponseWriter)
    (v : ContacaoResponse) : ResponseWriter × Option Error :=
  match marshal v with
  | .error msg => (w, some (.lib msg))
  | .ok s => w.Write (s ++ "\n")

/-- Go's `obterCotacaoAPI(ctx)` called at instant `now`; the second component is
the instant at which it returns.  `http.NewRequestWithContext` cannot fail on
the constant method and URL. -/
def obterCotacaoAPI (ctx : Context) (now : Nat) (upstream : Peer APIResponse) :
    Except Error String × Nat :=
  match Do ctx now "https://economia.awesomeapi.com.br/json/last/USD-BRL" upstream with
  | .err err t => (.error (.wrap "erro na requisição HTTP: " err), t)
  | .resp status body t =>
    if status ≠ StatusOK then
      (.error (.errorf ("API retornou status " ++ toString status)), t)
    else
      match Decode ctx t body with
      | (.error err, t) => (.error (.wrap "erro ao deserializar JSON: " err), t)
      | (.ok APIResponse, t) =>
        if APIResponse.USDBRL.Bid = "" then
          (.error (.errorf "campo bid está vázio no retorno"), t)
        else
          (.ok APIResponse.USDBRL.Bid, t)

/-- Go's `salvarCotacaoDB(ctx, bid)` called at instant `now`: the error, the
table afterwards and the lines logged. -/
def salvarCotacaoDB (exec : ExecContext) (ctx : Context) (now : Nat) (bid : String)
    (rows : Table) : Option Error × Table × List String :=
  let query := "INSERT INTO cotacoes(bid) VALUES(?)"
  match exec ctx now query bid rows with
  | (some msg, rows) => (some (.wrap "erro ao executar query: " (.lib msg)), rows, [])
  | (none, rows) => (none, rows, ["Cotação salva no banco de dados: " ++ bid])

/-- What one run of `handleCotacao` leaves behind: the response writer, the
table, the lines logged, the context handed to `obterCotacaoAPI`, and, when
the handler got as far as persisting, the instant at which `ctxDB` was derived
together with `ctxDB`. -/
structure Outcome where
  w : ResponseWriter
  rows : Table
  log : List String
  ctxAPI : Context
  ctxDB : Option (Nat × Context)

/-- Go's `handleCotacao(w, r)`.  The deferred `cancelAPI` and `cancelDB` run
when the handler returns and change nothing the outcome records. -/
def handleCotacao (env : World) : Outcome :=
  let w := ResponseWriter.new env.faults
  let ctxAPI := WithTimeout env.ctx env.start (200 * Millisecond)
  match obterCotacaoAPI ctxAPI env.start env.upstream with
  | (.error err, t) =>
    let log := ["Erro ao obter cotação: " ++ err.text]
    let w :=
      if ctxAPI.Err (t + env.logLatency) = some .DeadlineExceeded then
        httpError w "Timeou na consulta da API externa" StatusRequestTimeout
      else
        httpError w "Erro interno do servidor" StatusInternalServerError
    { w := w, rows := env.rows, log := log, ctxAPI := ctxAPI, ctxDB := none }
  | (.ok bid, t) =>
    let now := t + env.persistLatency
    let ctxDB := WithTimeout env.ctx now (10 * Millisecond)
    let (err, rows, logDB) := salvarCotacaoDB env.exec ctxDB now bid env.rows
    let log := logDB ++
      (match err with
        | some err => ["Erro ao salvar cotação no banco: " ++ err.text]
        | none => [])
    let w := { w with header := w.header.Set "Content-Type" "application/json" }
    let w := w.WriteHeader StatusOK
    let response : ContacaoResponse := { Bid := bid }
    match Encode env.marshal w response with
    | (w, some err) =>
      let log := log ++ ["Erro ao serializar resposta: " ++ err.text]
      let w := httpError w "Erro ao processar resposta" StatusInternalServerError
      { w := w, rows := rows, log := log, ctxAPI := ctxAPI, ctxDB := some (now, ctxDB) }
    | (w, none) =>
      { w := w, rows := rows, log := log, ctxAPI := ctxAPI, ctxDB := some (now, ctxDB) }

/-! ## Sample requests -/

/-- A rendering of `ContacaoResponse` in the manner of `encoding/json`, for bids
that need no escaping. -/
def marshalBid (v : ContacaoResponse) : Except String String :=
  .ok ("\x7b\"bid\":\"" ++ v.Bid ++ "\"\x7d")

/-- A database that inserts the row, unless its context has ended. -/
def execInsert : ExecContext := fun ctx now _ bid rows =>
  match ctx.Err now with
  | some e => (some e.text, rows)
  | none => (none, rows ++ [bid])

/-- A database that needs `d` nanoseconds for the insert and gives up when its
context ends before that. -/
def execSlow (d : Nat) : ExecContext := fun ctx now _ bid rows =>
  match ctx.Err (now + d) with
  | some e => (some e.text, rows)
  | none => (none, rows ++ [bid])

/-- A database that is out of service. -/
def execDown : ExecContext := fun _ _ _ _ rows => (some "database is locked", rows)

/-- A request with no deadline of its own, started at instant 0 on a healthy
connection and a working database, for a given upstream and a given duration
of the logging call. -/
def sample (upstream : Peer APIResponse) (logLatency : Nat) : World :=
  { ctx := Background, start := 0, upstream := upstream, logLatency := logLatency,
    persistLatency := 0, exec := execInsert, rows := ["5.40"], faults := [],
    marshal := marshalBid }

/-- An upstream that answers with `status` and a body holding `bid` after
`latency` nanoseconds. -/
def answers (latency status : Nat) (bid : String) : Peer APIResponse :=
  .responds latency status { latency := 0, decoded := .ok { USDBRL := { Bid := bid } } }

end Server

/-! ## Packages `os` and `fmt` -/

/-- The UTF-8 encoding of one character, as byte values. -/
def utf8 (c : Char) : List Nat :=
  let v := c.toNat
  if v < 0x80 then [v]
  else if v < 0x800 then [0xC0 + v / 0x40, 0x80 + v % 0x40]
  else if v < 0x10000 then [0xE0 + v / 0x1000, 0x80 + v / 0x40 % 0x40, 0x80 + v % 0x40]
  else [0xF0 + v / 0x40000, 0x80 + v / 0x1000 % 0x40, 0x80 + v / 0x40 % 0x40, 0x80 + v % 0x40]

/-- Go's `[]byte(s)`: the bytes of a string. -/
def bytes (s : String) : List Nat :=
  s.data.flatMap utf8

/-- The files of the working directory: the content of each name, `none` for a
name with no file. -/
abbrev FS := String → Option (List Nat)

/-- How a call of `os.WriteFile` goes: it succeeds, or it cannot open the
file, or the write breaks off and leaves `left` in the truncated file. -/
inductive WriteFault where
  | none
  | openFails (msg : String)
  | writeFails (msg : String) (left : List Nat)

/-- Go's `os.WriteFile(name, data, perm)`: opens the file with
`O_WRONLY|O_CREATE|O_TRUNC`, writes the data, closes the file. -/
def WriteFile (fs : FS) (fault : WriteFault) (name : String) (data : List Nat)
    (_perm : Nat) : FS × Option Error :=
  match fault with
  | .openFails msg => (fs, some (.lib msg))
  | .writeFails msg left => (fun n => if n = name then some left else fs n, some (.lib msg))
  | .none => (fun n => if n = name then some data else fs n, none)

namespace Client

/-! ## `cotacao/client/main.go` -/

/-- Go's `type CotacaoResponse struct`. -/
structure CotacaoResponse where
  Bid : String
  deriving DecidableEq, Repr

/-- Go's `buscarCotacaoServidor(ctx)` called at instant `now`. -/
def buscarCotacaoServidor (ctx : Context) (now : Nat) (server : Peer CotacaoResponse) :
    Except Error String :=
  match Do ctx now "http://localhost:8080/cotacao" server with
  | .err err t =>
    if ctx.Err t = some .DeadlineExceeded then
      .error (.errorf "timeout de 300ms exedido na requisição ao servidor")
    else
      .error (.wrap "erro na requisição HTTP: " err)
  | .resp status body t =>
    if status ≠ StatusOK then
      .error (.errorf ("servidor retornou status: " ++ toString status))
    else
      match Decode ctx t body with
      | (.error err, _) => .error (.wrap "erro ao deserializar JSON: " err)
      | (.ok cotacao, _) =>
        if cotacao.Bid = "" then
          .error (.errorf "campo bid está vázio na resposta")
        else
          .ok cotacao.Bid

/-- The name `salvarCotacaoArquivo` passes to `os.WriteFile` (line 84). -/
def arquivo : String := "contacao.txt"

/-- Go's `salvarCotacaoArquivo(bid)`: the files afterwards, the error and the
lines logged. -/
def salvarCotacaoArquivo (fs : FS) (fault : WriteFault) (bid : String) :
    FS × Option Error × List String :=
  let conteudo := "Dólar: " ++ bid ++ "\n"
  match WriteFile fs fault arquivo (bytes conteudo) 0o644 with
  | (fs, some err) => (fs, some (.wrap "erro ao escrever no arqivo: " err), [])
  | (fs, none) => (fs, none, ["Arquivo cotacao.txt salvo com sucesso"])

/-- Everything outside the client that one run depends on. -/
structure World where
  /-- The instant at which `main` starts. -/
  start : Nat
  /-- The quote server on `localhost:8080`. -/
  server : Peer CotacaoResponse
  /-- The files before the run. -/
  fs : FS
  /-- How the write of the output file goes, if the run gets to it. -/
  fault : WriteFault

/-- What one run of `main` leaves behind: the files, the lines logged, the
lines printed on standard output, and the arguments of the calls of
`salvarCotacaoArquivo`. -/
structure Outcome where
  fs : FS
  log : List String
  stdout : List String
  saved : List String

/-- Go's `main()`. -/
def main (env : World) : Outcome :=
  let ctx := WithTimeout Background env.start (300 * Millisecond)
  match buscarCotacaoServidor ctx env.start env.server with
  | .error err =>
    { fs := env.fs, log := ["Erro ao buscar cotação: " ++ err.text], stdout := [], saved := [] }
  | .ok bid =>
    match salvarCotacaoArquivo env.fs env.fault bid with
    | (fs, some err, log) =>
      { fs := fs, log := log ++ ["Erro ao salvar cotação em arquivo: " ++ err.text],
        stdout := [], saved := [bid] }
    | (fs, none, log) =>
      { fs := fs, log := log, stdout := ["Cotação do dólar salva: " ++ bid ++ "\n"],
        saved := [bid] }

/-! ## Sample runs -/

/-- A directory without files. -/
def noFiles : FS := fun _ => none

/-- A server that answers with `status` after `latency` nanoseconds and whose
body, holding `bid`, is complete `wait` nanoseconds later. -/
def answers (latency status wait : Nat) (bid : String) : Peer CotacaoResponse :=
  .responds latency status { latency := wait, decoded := .ok { Bid := bid } }

end Client

/-! # Theorems -/

/-! ## Contexts -/

/-- Once a context has ended its error stays: read at any instant from the one
at which it ended onwards, `ctx.Err()` is the same error. -/
theorem Context.Err_endedAt (c : Context) (now t : Nat) (e : CtxErr)
    (h : c.Err t = some e) (gap : Nat) : c.Err (c.endedAt now t + gap) = some e := by
  obtain ⟨deadline, canceledAt⟩ := c
  cases deadline <;> cases canceledAt <;>
    simp only [Context.Err, Context.endedAt] at h ⊢
  · exact absurd h (by simp)
  · split at h
    · rw [if_pos (by omega)]; exact h
    · exact absurd h (by simp)
  · split at h
    · rw [if_pos (by omega)]; exact h
    · exact absurd h (by simp)
  · rename_i d k
    by_cases hdk : d ≤ k
    · rw [if_pos hdk] at h ⊢
      split at h
      · rw [if_pos (by omega)]; exact h
      · exact absurd h (by simp)
    · rw [if_neg hdk] at h ⊢
      split at h
      · rw [if_pos (by omega)]; exact h
      · exact absurd h (by simp)

/-- The error of a context never changes once set: what `ctx.Err()` reports at
an instant it reports at every later one. -/
theorem Context.Err_mono (c : Context) (t t' : Nat) (e : CtxErr)
    (h : c.Err t = some e) (hle : t ≤ t') : c.Err t' = some e := by
  obtain ⟨deadline, canceledAt⟩ := c
  cases deadline <;> cases canceledAt <;> simp only [Context.Err] at h ⊢
  · exact absurd h (by simp)
  · split at h
    · rw [if_pos (by omega)]; exact h
    · exact absurd h (by simp)
  · split at h
    · rw [if_pos (by omega)]; exact h
    · exact absurd h (by simp)
  · rename_i d k
    by_cases hdk : d ≤ k
    · rw [if_pos hdk] at h ⊢
      split at h
      · rw [if_pos (by omega)]; exact h
      · exact absurd h (by simp)
    · rw [if_neg hdk] at h ⊢
      split at h
      · rw [if_pos (by omega)]; exact h
      · exact absurd h (by simp)

/-- A context whose deadline lies after instant `t` does not report
`DeadlineExceeded` at `t`. -/
theorem Context.Err_before_deadline (c : Context) (t : Nat)
    (h : ∀ d, c.deadline = some d → t < d) : c.Err t ≠ some .DeadlineExceeded := by
  obtain ⟨deadline, canceledAt⟩ := c
  cases deadline <;> cases canceledAt <;> simp only [Context.Err]
  · simp
  · split <;> simp
  · have := h _ rfl
    rw [if_neg (by omega)]; simp
  · have := h _ rfl
    split
    · rw [if_neg (by omega)]; simp
    · split <;> simp

/-! ## The outgoing call -/

/-- When `client.Do` fails with an error that is the context error `target`,
the context reports `target` from the instant `Do` returned onwards. -/
theorem Do_err_Is {α : Type} (ctx : Context) (now : Nat) (url : String) (peer : Peer α)
    (e : Error) (t : Nat) (target : CtxErr)
    (h : Do ctx now url peer = .err e t) (his : e.Is target = true) (gap : Nat) :
    ctx.Err (t + gap) = some target := by
  cases peer with
  | fails latency msg =>
    simp only [Do] at h
    cases hE : ctx.Err (now + latency) with
    | none =>
      rw [hE] at h
      injection h with he _
      subst he
      simp [Error.Is] at his
    | some c =>
      rw [hE] at h
      injection h with he ht
      subst he ht
      simp only [Error.Is, beq_iff_eq] at his
      subst his
      exact Context.Err_endedAt ctx now _ c hE gap
  | responds latency status body =>
    simp only [Do] at h
    cases hE : ctx.Err (now + latency) with
    | none => rw [hE] at h; cases h
    | some c =>
      rw [hE] at h
      injection h with he ht
      subst he ht
      simp only [Error.Is, beq_iff_eq] at his
      subst his
      exact Context.Err_endedAt ctx now _ c hE gap

/-- When `Decode` fails with an error that is the context error `target`, the
context reports `target` from the instant `Decode` returned onwards. -/
theorem Decode_err_Is {α : Type} (ctx : Context) (t : Nat) (body : Body α)
    (e : Error) (t' : Nat) (target : CtxErr)
    (h : Decode ctx t body = (.error e, t')) (his : e.Is target = true) (gap : Nat) :
    ctx.Err (t' + gap) = some target := by
  simp only [Decode] at h
  cases hE : ctx.Err (t + body.latency) with
  | none =>
    rw [hE] at h
    cases hd : body.decoded with
    | error msg =>
      rw [hd] at h
      simp only [Prod.mk.injEq, Except.error.injEq] at h
      obtain ⟨he, _⟩ := h
      subst he
      simp [Error.Is] at his
    | ok v => rw [hd] at h; simp at h
  | some c =>
    rw [hE] at h
    simp only [Prod.mk.injEq, Except.error.injEq] at h
    obtain ⟨he, ht⟩ := h
    subst he ht
    simp only [Error.Is, beq_iff_eq] at his
    subst his
    exact Context.Err_endedAt ctx t _ c hE gap

/-- When `client.Do` fails with an error that is not the deadline's, the context
does not report `DeadlineExceeded` at the instant `Do` returns. -/
theorem Do_err_not_deadline {α : Type} (ctx : Context) (now : Nat) (url : String)
    (peer : Peer α) (e : Error) (t : Nat)
    (h : Do ctx now url peer = .err e t) (his : e.Is .DeadlineExceeded = false) :
    ctx.Err t ≠ some .DeadlineExceeded := by
  have key : ∀ latency, (match ctx.Err (now + latency) with
      | some c => (Error.url "Get" url (.ctx c), ctx.endedAt now (now + latency))
      | none => (e, t)) = (e, t) → ctx.Err (now + latency) ≠ none →
      ctx.Err t ≠ some .DeadlineExceeded := by
    intro latency hm hne
    cases hE : ctx.Err (now + latency) with
    | none => exact absurd hE hne
    | some c =>
      rw [hE] at hm
      simp only [Prod.mk.injEq] at hm
      obtain ⟨he, ht⟩ := hm
      subst he ht
      have hend := Context.Err_endedAt ctx now (now + latency) c hE 0
      rw [Nat.add_zero] at hend
      rw [hend]
      cases c with
      | Canceled => simp
      | DeadlineExceeded => simp [Error.Is] at his
  cases peer with
  | fails latency msg =>
    simp only [Do] at h
    cases hE : ctx.Err (now + latency) with
    | none =>
      rw [hE] at h
      injection h with _ ht
      subst ht
      rw [hE]; simp
    | some c =>
      refine key latency ?_ (by rw [hE]; simp)
      rw [hE] at h ⊢
      injection h with he ht
      simp only [he, ht]
  | responds latency status body =>
    simp only [Do] at h
    cases hE : ctx.Err (now + latency) with
    | none => rw [hE] at h; cases h
    | some c =>
      refine key latency ?_ (by rw [hE]; simp)
      rw [hE] at h ⊢
      injection h with he ht
      simp only [he, ht]

/-- When `Decode` fails with an error that is not the deadline's, the context
does not report `DeadlineExceeded` at the instant `Decode` returns. -/
theorem Decode_err_not_deadline {α : Type} (ctx : Context) (t : Nat) (body : Body α)
    (e : Error) (t' : Nat)
    (h : Decode ctx t body = (.error e, t')) (his : e.Is .DeadlineExceeded = false) :
    ctx.Err t' ≠ some .DeadlineExceeded := by
  simp only [Decode] at h
  cases hE : ctx.Err (t + body.latency) with
  | none =>
    rw [hE] at h
    cases hd : body.decoded with
    | error msg =>
      rw [hd] at h
      simp only [Prod.mk.injEq, Except.error.injEq] at h
      rw [← h.2, hE]; simp
    | ok v => rw [hd] at h; simp at h
  | some c =>
    rw [hE] at h
    simp only [Prod.mk.injEq, Except.error.injEq] at h
    obtain ⟨he, ht⟩ := h
    subst he ht
    have hend := Context.Err_endedAt ctx t (t + body.latency) c hE 0
    rw [Nat.add_zero] at hend
    rw [hend]
    cases c with
    | Canceled => simp
    | DeadlineExceeded => simp [Error.Is] at his

/-- A successful decode returns while the context is live. -/
theorem Decode_ok_live {α : Type} (ctx : Context) (t : Nat) (body : Body α) (v : α) (t' : Nat)
    (h : Decode ctx t body = (.ok v, t')) : ctx.Err t' = none := by
  simp only [Decode] at h
  cases hE : ctx.Err (t + body.latency) with
  | none =>
    rw [hE] at h
    cases hd : body.decoded with
    | error msg => rw [hd] at h; simp at h
    | ok v =>
      rw [hd] at h
      simp only [Prod.mk.injEq] at h
      rw [← h.2, hE]
  | some c => rw [hE] at h; simp at h

/-- A response is handed over by `client.Do` while the context is live. -/
theorem Do_resp_live {α : Type} (ctx : Context) (now : Nat) (url : String) (peer : Peer α)
    (status : Nat) (body : Body α) (t : Nat)
    (h : Do ctx now url peer = .resp status body t) : ctx.Err t = none := by
  cases peer with
  | fails latency msg =>
    simp only [Do] at h
    cases hE : ctx.Err (now + latency) <;> rw [hE] at h <;> cases h
  | responds latency status' body' =>
    simp only [Do] at h
    cases hE : ctx.Err (now + latency) with
    | none =>
      rw [hE] at h
      injection h with _ _ ht
      rw [← ht, hE]
    | some c => rw [hE] at h; cases h

namespace Server

/-- When `obterCotacaoAPI` fails because the deadline of its context fired, the
context reports `DeadlineExceeded` from the instant of the return onwards. -/
theorem obterCotacaoAPI_timeout_ctx (ctx : Context) (now : Nat) (upstream : Peer APIResponse)
    (err : Error) (t : Nat) (h : obterCotacaoAPI ctx now upstream = (.error err, t))
    (his : err.Is .DeadlineExceeded = true) (gap : Nat) :
    ctx.Err (t + gap) = some .DeadlineExceeded := by
  unfold obterCotacaoAPI at h
  cases hD : Do ctx now "https://economia.awesomeapi.com.br/json/last/USD-BRL" upstream with
  | err e t₁ =>
    rw [hD] at h
    simp only [Prod.mk.injEq, Except.error.injEq] at h
    obtain ⟨he, ht⟩ := h
    subst he ht
    exact Do_err_Is ctx now _ upstream e t₁ _ hD (by simpa [Error.Is] using his) gap
  | resp status body t₁ =>
    rw [hD] at h
    simp only at h
    split at h
    · simp only [Prod.mk.injEq, Except.error.injEq] at h
      obtain ⟨he, _⟩ := h
      subst he
      simp [Error.Is] at his
    · cases hDec : Decode ctx t₁ body with
      | mk r t₂ =>
        rw [hDec] at h
        cases r with
        | error e =>
          simp only [Prod.mk.injEq, Except.error.injEq] at h
          obtain ⟨he, ht⟩ := h
          subst he ht
          exact Decode_err_Is ctx t₁ body e t₂ _ hDec (by simpa [Error.Is] using his) gap
        | ok v =>
          simp only at h
          split at h
          · simp only [Prod.mk.injEq, Except.error.injEq] at h
            obtain ⟨he, _⟩ := h
            subst he
            simp [Error.Is] at his
          · simp at h

/-- When `obterCotacaoAPI` fails for a reason other than the deadline firing,
its context does not report `DeadlineExceeded` at the instant of the return. -/
theorem obterCotacaoAPI_other_failure_ctx (ctx : Context) (now : Nat)
    (upstream : Peer APIResponse) (err : Error) (t : Nat)
    (h : obterCotacaoAPI ctx now upstream = (.error err, t))
    (his : err.Is .DeadlineExceeded = false) :
    ctx.Err t ≠ some .DeadlineExceeded := by
  unfold obterCotacaoAPI at h
  cases hD : Do ctx now "https://economia.awesomeapi.com.br/json/last/USD-BRL" upstream with
  | err e t₁ =>
    rw [hD] at h
    simp only [Prod.mk.injEq, Except.error.injEq] at h
    obtain ⟨he, ht⟩ := h
    subst he ht
    exact Do_err_not_deadline ctx now _ upstream e t₁ hD (by simpa [Error.Is] using his)
  | resp status body t₁ =>
    rw [hD] at h
    have hlive := Do_resp_live ctx now _ upstream status body t₁ hD
    simp only at h
    split at h
    · simp only [Prod.mk.injEq, Except.error.injEq] at h
      rw [← h.2, hlive]; simp
    · cases hDec : Decode ctx t₁ body with
      | mk r t₂ =>
        rw [hDec] at h
        cases r with
        | error e =>
          simp only [Prod.mk.injEq, Except.error.injEq] at h
          obtain ⟨he, ht⟩ := h
          subst he ht
          exact Decode_err_not_deadline ctx t₁ body e t₂ hDec (by simpa [Error.Is] using his)
        | ok v =>
          have hlive₂ := Decode_ok_live ctx t₁ body v t₂ hDec
          simp only at h
          split at h
          · simp only [Prod.mk.injEq, Except.error.injEq] at h
            rw [← h.2, hlive₂]; simp
          · simp at h

/-- The function `obterCotacaoAPI` never returns success with an empty bid. -/
theorem obterCotacaoAPI_ok_ne_empty (ctx : Context) (now : Nat) (upstream : Peer APIResponse)
    (b : String) (t : Nat) (h : obterCotacaoAPI ctx now upstream = (.ok b, t)) : b ≠ "" := by
  unfold obterCotacaoAPI at h
  cases hD : Do ctx now "https://economia.awesomeapi.com.br/json/last/USD-BRL" upstream with
  | err e t₁ => rw [hD] at h; simp at h
  | resp status body t₁ =>
    rw [hD] at h
    simp only at h
    split at h
    · simp at h
    · cases hDec : Decode ctx t₁ body with
      | mk r t₂ =>
        rw [hDec] at h
        cases r with
        | error e => simp at h
        | ok v =>
          simp only at h
          split at h
          · simp at h
          · rename_i hne
            simp only [Prod.mk.injEq, Except.ok.injEq] at h
            rw [← h.1]
            exact hne


/-- The outcome of `handleCotacao` when the fetch fails. -/
theorem handleCotacao_of_error (env : World) (err : Error) (t : Nat)
    (hfetch : obterCotacaoAPI (WithTimeout env.ctx env.start (200 * Millisecond)) env.start
      env.upstream = (.error err, t)) :
    handleCotacao env =
      { w := if (WithTimeout env.ctx env.start (200 * Millisecond)).Err (t + env.logLatency)
              = some .DeadlineExceeded then
            httpError (ResponseWriter.new env.faults) "Timeou na consulta da API externa"
              StatusRequestTimeout
          else
            httpError (ResponseWriter.new env.faults) "Erro interno do servidor"
              StatusInternalServerError
        rows := env.rows
        log := ["Erro ao obter cotação: " ++ err.text]
        ctxAPI := WithTimeout env.ctx env.start (200 * Millisecond)
        ctxDB := none } := by
  unfold handleCotacao
  simp only [hfetch]

/-- The status `http.Error` commits on a writer that has not written its header. -/
theorem httpError_new_status (faults : List Bool) (msg : String) (code : Nat) :
    (httpError (ResponseWriter.new faults) msg code).response.status = code := by
  simp only [httpError, ResponseWriter.new, ResponseWriter.WriteHeader, ResponseWriter.Write,
    ResponseWriter.response]
  rcases faults with _ | ⟨_ | _, _⟩ <;> simp

/-- The response of `handleCotacao` when the fetch succeeds with `bid` does not
depend on the database: it is what the response stage makes of `bid`. -/
theorem handleCotacao_of_ok (env : World) (bid : String) (t : Nat)
    (hfetch : obterCotacaoAPI (WithTimeout env.ctx env.start (200 * Millisecond)) env.start
      env.upstream = (.ok bid, t)) :
    (handleCotacao env).w =
      (match Encode env.marshal
          (({ (ResponseWriter.new env.faults) with
              header := (ResponseWriter.new env.faults).header.Set "Content-Type"
                "application/json" }).WriteHeader StatusOK) { Bid := bid } with
        | (w, some _) => httpError w "Erro ao processar resposta" StatusInternalServerError
        | (w, none) => w)
    ∧ (handleCotacao env).ctxAPI = WithTimeout env.ctx env.start (200 * Millisecond)
    ∧ (handleCotacao env).ctxDB = some (t + env.persistLatency,
        WithTimeout env.ctx (t + env.persistLatency) (10 * Millisecond)) := by
  unfold handleCotacao
  simp only [hfetch]
  refine ⟨?_, ?_, ?_⟩ <;> split <;> rfl


/-! ## The response stage -/

/-- The response stage of `handleCotacao` always commits status 200 with the
JSON content type, whatever `Encode` does afterwards. -/
theorem respond_status_header (env : World) (bid : String) :
    let w := (match Encode env.marshal
          (({ (ResponseWriter.new env.faults) with
              header := (ResponseWriter.new env.faults).header.Set "Content-Type"
                "application/json" }).WriteHeader StatusOK) { Bid := bid } with
        | (w, some _) => httpError w "Erro ao processar resposta" StatusInternalServerError
        | (w, none) => w)
    w.response.status = StatusOK ∧ w.response.header = [("Content-Type", "application/json")] := by
  simp only [Encode, ResponseWriter.new, ResponseWriter.WriteHeader, ResponseWriter.Write,
    ResponseWriter.response, httpError, Header.Set]
  cases env.marshal { Bid := bid } with
  | error msg => rcases env.faults with _ | ⟨_ | _, _⟩ <;> simp
  | ok s => rcases env.faults with _ | ⟨_ | _, _ | ⟨_ | _, _⟩⟩ <;> simp

/-- The response stage sends the rendering of the bid and a newline when the
rendering and the write succeed. -/
theorem respond_body (env : World) (bid s : String)
    (hs : env.marshal { Bid := bid } = .ok s) (hconn : env.faults.head? ≠ some true) :
    let w := (match Encode env.marshal
          (({ (ResponseWriter.new env.faults) with
              header := (ResponseWriter.new env.faults).header.Set "Content-Type"
                "application/json" }).WriteHeader StatusOK) { Bid := bid } with
        | (w, some _) => httpError w "Erro ao processar resposta" StatusInternalServerError
        | (w, none) => w)
    w.response.body = s ++ "\n" := by
  simp only [Encode, ResponseWriter.new, ResponseWriter.WriteHeader, ResponseWriter.Write,
    ResponseWriter.response, httpError, Header.Set, hs]
  rcases hf : env.faults with _ | ⟨_ | _, _⟩
  · simp
  · simp
  · rw [hf] at hconn; simp at hconn

/-! ## Claims about the server -/

/-- C1: for every request whose fetch succeeds with bid `b`, the response is the
same whatever the database call does (in particular whether `salvarCotacaoDB`
returns nil or an error): its status is 200, its content type is
`application/json`, and its body is the rendering of `b` followed by a newline
(when the write to the caller goes through). -/
theorem handleCotacao_response_ignores_persist (env : World) (b : String) (t : Nat)
    (hfetch : obterCotacaoAPI (WithTimeout env.ctx env.start (200 * Millisecond)) env.start
      env.upstream = (.ok b, t))
    (exec : ExecContext) :
    (handleCotacao { env with exec := exec }).w.response = (handleCotacao env).w.response
    ∧ (handleCotacao env).w.response.status = StatusOK
    ∧ (handleCotacao env).w.response.header = [("Content-Type", "application/json")]
    ∧ ∀ s, env.marshal { Bid := b } = .ok s → env.faults.head? ≠ some true →
        (handleCotacao env).w.response.body = s ++ "\n" := by
  have h₁ := (handleCotacao_of_ok env b t hfetch).1
  have h₂ := (handleCotacao_of_ok { env with exec := exec } b t hfetch).1
  refine ⟨?_, ?_, ?_, ?_⟩
  · rw [h₁, h₂]
  · rw [h₁]; exact (respond_status_header env b).1
  · rw [h₁]; exact (respond_status_header env b).2
  · intro s hs hconn
    rw [h₁]; exact respond_body env b s hs hconn

/-- C1, on a sample: the upstream answers `5.43`; with the database out of
service the response is the one given with the database working, status 200
and body `{"bid":"5.43"}`. -/
theorem handleCotacao_response_ignores_persist_witness :
    obterCotacaoAPI (WithTimeout (sample (answers (50 * Millisecond) 200 "5.43") 0).ctx 0
        (200 * Millisecond)) 0 (answers (50 * Millisecond) 200 "5.43")
      = (.ok "5.43", 50 * Millisecond)
    ∧ (salvarCotacaoDB execDown Background 0 "5.43" []).1
        = some (.wrap "erro ao executar query: " (.lib "database is locked"))
    ∧ (handleCotacao { sample (answers (50 * Millisecond) 200 "5.43") 0 with
          exec := execDown }).w.response
        = (handleCotacao (sample (answers (50 * Millisecond) 200 "5.43") 0)).w.response
    ∧ (handleCotacao { sample (answers (50 * Millisecond) 200 "5.43") 0 with
          exec := execDown }).w.response
        = { status := 200, header := [("Content-Type", "application/json")],
            body := "\x7b\"bid\":\"5.43\"\x7d\n" } :=
  ⟨rfl, by decide,
    (handleCotacao_response_ignores_persist (sample (answers (50 * Millisecond) 200 "5.43") 0)
      "5.43" (50 * Millisecond) rfl execDown).1,
    by decide⟩

/-- C2: for every request in which `obterCotacaoAPI` fails because the fetch
deadline fired (its error is `context.DeadlineExceeded`), the handler responds
with HTTP 408 and not 500, never reaches the persist stage, and leaves the table
as it was. -/
theorem handleCotacao_timeout_408 (env : World) (err : Error) (t : Nat)
    (hfetch : obterCotacaoAPI (WithTimeout env.ctx env.start (200 * Millisecond)) env.start
      env.upstream = (.error err, t))
    (htimeout : err.Is .DeadlineExceeded = true) :
    (handleCotacao env).w.response.status = StatusRequestTimeout
    ∧ (handleCotacao env).w.response.status ≠ StatusInternalServerError
    ∧ (handleCotacao env).rows = env.rows
    ∧ (handleCotacao env).ctxDB = none := by
  have hctx := obterCotacaoAPI_timeout_ctx _ _ _ err t hfetch htimeout env.logLatency
  have hstatus : (handleCotacao env).w.response.status = StatusRequestTimeout := by
    rw [handleCotacao_of_error env err t hfetch]
    simp only [hctx, if_true]
    exact httpError_new_status _ _ _
  refine ⟨hstatus, ?_, ?_, ?_⟩
  · rw [hstatus]; decide
  · rw [handleCotacao_of_error env err t hfetch]
  · rw [handleCotacao_of_error env err t hfetch]

/-- C2, on a sample: the upstream answers exactly at the fetch deadline, 200ms
after the start; the fetch fails with the deadline's error, the status is 408
and the table keeps its single row. -/
theorem handleCotacao_timeout_408_witness :
    obterCotacaoAPI (WithTimeout Background 0 (200 * Millisecond)) 0
        (answers (200 * Millisecond) 200 "5.43")
      = (.error (.wrap "erro na requisição HTTP: "
          (.url "Get" "https://economia.awesomeapi.com.br/json/last/USD-BRL"
            (.ctx .DeadlineExceeded))), 200 * Millisecond)
    ∧ (handleCotacao (sample (answers (200 * Millisecond) 200 "5.43") 0)).w.response.status = 408
    ∧ (handleCotacao (sample (answers (200 * Millisecond) 200 "5.43") 0)).w.response.status ≠ 500
    ∧ (handleCotacao (sample (answers (200 * Millisecond) 200 "5.43") 0)).rows = ["5.40"]
    ∧ (handleCotacao (sample (answers (200 * Millisecond) 200 "5.43") 0)).ctxDB = none :=
  ⟨rfl, handleCotacao_timeout_408 (sample (answers (200 * Millisecond) 200 "5.43") 0)
    (.wrap "erro na requisição HTTP: "
      (.url "Get" "https://economia.awesomeapi.com.br/json/last/USD-BRL"
        (.ctx .DeadlineExceeded))) (200 * Millisecond) rfl rfl⟩

/-- C3 fails on the code: the upstream answers with status 503 after 199ms, so
the fetch fails on the status, not on the deadline, while the fetch context is
still live; the handler logs that error, which takes 2ms, and only then reads
`ctxAPI.Err()`; the 200ms deadline has passed meanwhile, so the handler answers
408 with the text of an upstream timeout, where the claim requires 500. -/
theorem handleCotacao_status_503_answered_408 :
    obterCotacaoAPI (WithTimeout Background 0 (200 * Millisecond)) 0
        (answers (199 * Millisecond) 503 "5.43")
      = (.error (.errorf "API retornou status 503"), 199 * Millisecond)
    ∧ (Error.errorf "API retornou status 503").Is .DeadlineExceeded = false
    ∧ (WithTimeout Background 0 (200 * Millisecond)).Err (199 * Millisecond) = none
    ∧ (handleCotacao (sample (answers (199 * Millisecond) 503 "5.43")
        (2 * Millisecond))).log = ["Erro ao obter cotação: API retornou status 503"]
    ∧ (handleCotacao (sample (answers (199 * Millisecond) 503 "5.43")
        (2 * Millisecond))).w.response.body = "Timeou na consulta da API externa\n"
    ∧ (handleCotacao (sample (answers (199 * Millisecond) 503 "5.43")
        (2 * Millisecond))).w.response.status = 408
    ∧ (handleCotacao (sample (answers (199 * Millisecond) 503 "5.43")
        (2 * Millisecond))).w.response.status ≠ 500 :=
  ⟨rfl, rfl, by decide, by decide, by decide, by decide, by decide⟩

/-- A failed fetch is answered with 500 when the fetch deadline lies after the
instant at which the handler reads the context. -/
theorem handleCotacao_live_context_500 (env : World) (err : Error) (t : Nat)
    (hfetch : obterCotacaoAPI (WithTimeout env.ctx env.start (200 * Millisecond)) env.start
      env.upstream = (.error err, t))
    (hlive : ∀ d, (WithTimeout env.ctx env.start (200 * Millisecond)).deadline = some d →
      t + env.logLatency < d) :
    (handleCotacao env).w.response.status = StatusInternalServerError := by
  have hctx := Context.Err_before_deadline _ (t + env.logLatency) hlive
  rw [handleCotacao_of_error env err t hfetch]
  simp only [hctx, if_false]
  exact httpError_new_status _ _ _

/-- A fetch that fails for a reason other than the deadline firing is answered
with 500 when the handler reads the context at the instant the fetch returned:
only the time that passes between the return and that read can turn the answer
into 408. -/
theorem handleCotacao_other_failure_no_gap (env : World) (err : Error) (t : Nat)
    (hfetch : obterCotacaoAPI (WithTimeout env.ctx env.start (200 * Millisecond)) env.start
      env.upstream = (.error err, t))
    (hcause : err.Is .DeadlineExceeded = false) (hgap : env.logLatency = 0) :
    (handleCotacao env).w.response.status = StatusInternalServerError := by
  have hctx := obterCotacaoAPI_other_failure_ctx _ _ _ err t hfetch hcause
  rw [handleCotacao_of_error env err t hfetch, hgap, Nat.add_zero]
  simp only [hctx, if_false]
  exact httpError_new_status _ _ _

/-- A failed fetch is answered with 408 or with 500, so never with 200. -/
theorem handleCotacao_error_status (env : World) (err : Error) (t : Nat)
    (hfetch : obterCotacaoAPI (WithTimeout env.ctx env.start (200 * Millisecond)) env.start
      env.upstream = (.error err, t)) :
    (handleCotacao env).w.response.status = StatusRequestTimeout
    ∨ (handleCotacao env).w.response.status = StatusInternalServerError := by
  rw [handleCotacao_of_error env err t hfetch]
  simp only
  split
  · exact Or.inl (httpError_new_status _ _ _)
  · exact Or.inr (httpError_new_status _ _ _)

/-- A body that decodes with an empty bid makes `obterCotacaoAPI` fail, at every
status and every timing. -/
theorem obterCotacaoAPI_empty_bid_error (ctx : Context) (now latency status wait : Nat) :
    ∃ err t, obterCotacaoAPI ctx now (.responds latency status
      { latency := wait, decoded := .ok { USDBRL := { Bid := "" } } }) = (.error err, t) := by
  unfold obterCotacaoAPI
  simp only [Do]
  cases ctx.Err (now + latency) with
  | some e => exact ⟨_, _, rfl⟩
  | none =>
    simp only
    by_cases hst : status ≠ StatusOK
    · rw [if_pos hst]; exact ⟨_, _, rfl⟩
    · rw [if_neg hst]
      simp only [Decode]
      cases ctx.Err (now + latency + wait) with
      | some e => exact ⟨_, _, rfl⟩
      | none => exact ⟨_, _, rfl⟩

/-- C4 fails on the code: the upstream answers after 199ms with status 200 and
the body `{"USDBRL":{"bid":""}}`, so the fetch fails on the empty field while
the fetch context is still live; the handler logs that error, which takes 2ms,
and only then reads `ctxAPI.Err()`; the 200ms deadline has passed meanwhile, so
the handler answers 408 with the text of an upstream timeout, where the claim
requires 500. -/
theorem handleCotacao_empty_bid_answered_408 :
    obterCotacaoAPI (WithTimeout Background 0 (200 * Millisecond)) 0
        (answers (199 * Millisecond) 200 "")
      = (.error (.errorf "campo bid está vázio no retorno"), 199 * Millisecond)
    ∧ (Error.errorf "campo bid está vázio no retorno").Is .DeadlineExceeded = false
    ∧ (WithTimeout Background 0 (200 * Millisecond)).Err (199 * Millisecond) = none
    ∧ (handleCotacao (sample (answers (199 * Millisecond) 200 "")
        (2 * Millisecond))).log = ["Erro ao obter cotação: campo bid está vázio no retorno"]
    ∧ (handleCotacao (sample (answers (199 * Millisecond) 200 "")
        (2 * Millisecond))).w.response.body = "Timeou na consulta da API externa\n"
    ∧ (handleCotacao (sample (answers (199 * Millisecond) 200 "")
        (2 * Millisecond))).w.response.status = 408
    ∧ (handleCotacao (sample (answers (199 * Millisecond) 200 "")
        (2 * Millisecond))).w.response.status ≠ 500 :=
  ⟨rfl, rfl, by decide, by decide, by decide, by decide, by decide⟩

/-- What the code does keep of the empty-bid rule: `obterCotacaoAPI` never
returns success with an empty bid; a body that decodes with an empty
`USDBRL.bid` makes it fail, and the handler then answers 500 or 408, never 200,
and 500 when the fetch deadline has not passed at the instant the handler reads
`ctxAPI.Err()`; a 200 response comes only from a fetch that returned a non-empty
bid, and its body is the rendering of that bid when the rendering and the write
succeed. -/
theorem obterCotacaoAPI_never_empty_bid (env : World) (latency status wait : Nat)
    (hup : env.upstream = .responds latency status
      { latency := wait, decoded := .ok { USDBRL := { Bid := "" } } }) :
    (∀ ctx now upstream b t, obterCotacaoAPI ctx now upstream = (.ok b, t) → b ≠ "")
    ∧ (∃ err t, obterCotacaoAPI (WithTimeout env.ctx env.start (200 * Millisecond)) env.start
          env.upstream = (.error err, t)
        ∧ ((∀ d, (WithTimeout env.ctx env.start (200 * Millisecond)).deadline = some d →
            t + env.logLatency < d) →
          (handleCotacao env).w.response.status = StatusInternalServerError))
    ∧ ((handleCotacao env).w.response.status = StatusInternalServerError
        ∨ (handleCotacao env).w.response.status = StatusRequestTimeout)
    ∧ (handleCotacao env).w.response.status ≠ StatusOK
    ∧ (∀ env' : World, (handleCotacao env').w.response.status = StatusOK →
        ∃ b t, b ≠ "" ∧ obterCotacaoAPI (WithTimeout env'.ctx env'.start (200 * Millisecond))
            env'.start env'.upstream = (.ok b, t)
          ∧ ∀ s, env'.marshal { Bid := b } = .ok s → env'.faults.head? ≠ some true →
              (handleCotacao env').w.response.body = s ++ "\n") := by
  obtain ⟨err, t, hfetch⟩ := obterCotacaoAPI_empty_bid_error
    (WithTimeout env.ctx env.start (200 * Millisecond)) env.start latency status wait
  rw [← hup] at hfetch
  have hstatus := handleCotacao_error_status env err t hfetch
  refine ⟨obterCotacaoAPI_ok_ne_empty, ⟨err, t, hfetch, fun hlive =>
    (handleCotacao_live_context_500 env err t hfetch hlive)⟩, hstatus.symm, ?_, ?_⟩
  · rcases hstatus with h | h <;> rw [h] <;> decide
  · intro env' h200
    cases hf : obterCotacaoAPI (WithTimeout env'.ctx env'.start (200 * Millisecond))
        env'.start env'.upstream with
    | mk r t' =>
      cases r with
      | error err' =>
        rcases handleCotacao_error_status env' err' t' hf with h | h <;>
          rw [h] at h200 <;> exact absurd h200 (by decide)
      | ok b =>
        refine ⟨b, t', obterCotacaoAPI_ok_ne_empty _ _ _ b t' hf, rfl, ?_⟩
        intro s hs hconn
        rw [(handleCotacao_of_ok env' b t' hf).1]
        exact respond_body env' b s hs hconn

/-- Once the fetch has succeeded the status the caller receives is 200, whether
or not `Encode` fails afterwards: the call of `http.Error` with status 500 on
line 110 comes after `w.WriteHeader(http.StatusOK)` and cannot change it. -/
theorem handleCotacao_fetched_status (env : World) (b : String) (t : Nat)
    (hfetch : obterCotacaoAPI (WithTimeout env.ctx env.start (200 * Millisecond)) env.start
      env.upstream = (.ok b, t)) :
    (handleCotacao env).w.response.status = StatusOK := by
  rw [(handleCotacao_of_ok env b t hfetch).1]
  exact (respond_status_header env b).1

/-- C5 fails on the code: the fetch succeeds with `5.43`, the write of the
encoded response fails, `Encode` returns the error and the handler logs it and
calls `http.Error` with status 500; the caller still receives status 200 with
the JSON content type. -/
theorem handleCotacao_encode_failure_status_200 :
    obterCotacaoAPI (WithTimeout Background 0 (200 * Millisecond)) 0
        (answers (50 * Millisecond) 200 "5.43") = (.ok "5.43", 50 * Millisecond)
    ∧ (handleCotacao { sample (answers (50 * Millisecond) 200 "5.43") 0 with
          faults := [true] }).log
        = ["Cotação salva no banco de dados: 5.43",
           "Erro ao serializar resposta: write: broken pipe"]
    ∧ (handleCotacao { sample (answers (50 * Millisecond) 200 "5.43") 0 with
          faults := [true] }).w.response
        = { status := 200, header := [("Content-Type", "application/json")],
            body := "Erro ao processar resposta\n" }
    ∧ (handleCotacao { sample (answers (50 * Millisecond) 200 "5.43") 0 with
          faults := [true] }).w.response.status ≠ 500 :=
  ⟨rfl, by decide, by decide, by decide⟩

/-- The fetch context of a request that its caller does not cancel reports
`DeadlineExceeded` from the instant min(request deadline, start + 200ms) on,
and nothing before. -/
theorem WithTimeout_Err_not_canceled (parent : Context) (now d u : Nat)
    (h : parent.canceledAt = none) :
    (WithTimeout parent now d).Err u =
      if (match parent.deadline with
          | some p => min p (now + d)
          | none => now + d) ≤ u then some .DeadlineExceeded else none := by
  simp only [WithTimeout, Context.Err, h]

/-- An upstream whose answer with status 200 and a non-empty bid is complete
while the context is live makes `obterCotacaoAPI` succeed at that instant. -/
theorem obterCotacaoAPI_on_time (ctx : Context) (now latency wait : Nat) (v : APIResponse)
    (hlive : ctx.Err (now + latency + wait) = none) (hbid : v.USDBRL.Bid ≠ "") :
    obterCotacaoAPI ctx now (.responds latency StatusOK { latency := wait, decoded := .ok v })
      = (.ok v.USDBRL.Bid, now + latency + wait) := by
  have hhead : ctx.Err (now + latency) = none := by
    cases hE : ctx.Err (now + latency) with
    | none => rfl
    | some c =>
      have := Context.Err_mono ctx (now + latency) (now + latency + wait) c hE (by omega)
      rw [hlive] at this
      cases this
  simp only [obterCotacaoAPI, Do, Decode, hhead, hlive, ne_eq, not_true_eq_false, if_false,
    if_neg hbid]

/-- An upstream whose answer with status 200 is not complete before the deadline
of the context makes `obterCotacaoAPI` fail with the deadline's error. -/
theorem obterCotacaoAPI_late (ctx : Context) (now latency wait : Nat)
    (decoded : Except String APIResponse)
    (hlate : ctx.Err (now + latency + wait) = some .DeadlineExceeded) :
    ∃ err t, obterCotacaoAPI ctx now
        (.responds latency StatusOK { latency := wait, decoded := decoded }) = (.error err, t)
      ∧ err.Is .DeadlineExceeded = true := by
  cases hE : ctx.Err (now + latency) with
  | some c =>
    have := Context.Err_mono ctx (now + latency) (now + latency + wait) c hE (by omega)
    rw [hlate] at this
    injection this with hc
    subst hc
    refine ⟨.wrap "erro na requisição HTTP: "
      (.url "Get" "https://economia.awesomeapi.com.br/json/last/USD-BRL"
        (.ctx .DeadlineExceeded)), ctx.endedAt now (now + latency), ?_, rfl⟩
    simp only [obterCotacaoAPI, Do, hE]
  | none =>
    refine ⟨.wrap "erro ao deserializar JSON: " (.ctx .DeadlineExceeded),
      ctx.endedAt (now + latency) (now + latency + wait), ?_, rfl⟩
    simp only [obterCotacaoAPI, Do, Decode, hE, hlate, ne_eq, not_true_eq_false, if_false]

/-- A fetch that fails with the deadline's error is answered with 408 and leaves
the table as it was. -/
theorem handleCotacao_deadline_error (env : World) (err : Error) (t : Nat)
    (hfetch : obterCotacaoAPI (WithTimeout env.ctx env.start (200 * Millisecond)) env.start
      env.upstream = (.error err, t))
    (htimeout : err.Is .DeadlineExceeded = true) :
    (handleCotacao env).w.response.status = StatusRequestTimeout
    ∧ (handleCotacao env).rows = env.rows := by
  have hctx := obterCotacaoAPI_timeout_ctx _ _ _ err t hfetch htimeout env.logLatency
  rw [handleCotacao_of_error env err t hfetch]
  simp only [hctx, if_true, and_true]
  exact httpError_new_status _ _ _

/-- After a successful fetch the table is the one `db.ExecContext` returns when
called, at the instant the persist stage starts, with a context derived from
the request context by a timeout of 10ms. -/
theorem handleCotacao_persist_call (env : World) (b : String) (t : Nat)
    (hfetch : obterCotacaoAPI (WithTimeout env.ctx env.start (200 * Millisecond)) env.start
      env.upstream = (.ok b, t)) :
    (handleCotacao env).rows
      = (env.exec (WithTimeout env.ctx (t + env.persistLatency) (10 * Millisecond))
          (t + env.persistLatency) "INSERT INTO cotacoes(bid) VALUES(?)" b env.rows).2 := by
  unfold handleCotacao
  simp only [hfetch, salvarCotacaoDB]
  cases env.exec (WithTimeout env.ctx (t + env.persistLatency) (10 * Millisecond))
      (t + env.persistLatency) "INSERT INTO cotacoes(bid) VALUES(?)" b env.rows with
  | mk e rows =>
    cases e <;> simp only <;> split <;> rfl

/-- C10: the fetch is cut off at min(request deadline, handler start + 200ms):
for a request its caller does not cancel, an upstream answer with status 200
and a non-empty bid makes the handler answer 200 when it is complete before
that instant, and 408 with an untouched table when it is not.  After every
successful fetch, the table is the result of `db.ExecContext` called with the
context `WithTimeout(r.Context(), 10ms)` taken at the instant the persist stage
starts: that context expires at min(request deadline, persist start + 10ms),
whatever the fetch context, and when the request has no deadline before persist
start + 10ms it expires at persist start + 10ms and does not report
`DeadlineExceeded` at any earlier instant, however late the fetch returned. -/
theorem handleCotacao_deadlines (env : World) :
    (∀ latency wait v,
        env.upstream = .responds latency StatusOK { latency := wait, decoded := .ok v } →
        v.USDBRL.Bid ≠ "" → env.ctx.canceledAt = none →
        (env.start + latency + wait < (match env.ctx.deadline with
            | some p => min p (env.start + 200 * Millisecond)
            | none => env.start + 200 * Millisecond) →
          obterCotacaoAPI (WithTimeout env.ctx env.start (200 * Millisecond)) env.start
              env.upstream = (.ok v.USDBRL.Bid, env.start + latency + wait)
          ∧ (handleCotacao env).w.response.status = StatusOK)
        ∧ ((match env.ctx.deadline with
            | some p => min p (env.start + 200 * Millisecond)
            | none => env.start + 200 * Millisecond) ≤ env.start + latency + wait →
          (handleCotacao env).w.response.status = StatusRequestTimeout
          ∧ (handleCotacao env).rows = env.rows))
    ∧ ∀ b t, obterCotacaoAPI (WithTimeout env.ctx env.start (200 * Millisecond)) env.start
          env.upstream = (.ok b, t) →
        (handleCotacao env).rows
          = (env.exec (WithTimeout env.ctx (t + env.persistLatency) (10 * Millisecond))
              (t + env.persistLatency) "INSERT INTO cotacoes(bid) VALUES(?)" b env.rows).2
        ∧ (WithTimeout env.ctx (t + env.persistLatency) (10 * Millisecond)).deadline
          = some (match env.ctx.deadline with
              | some p => min p (t + env.persistLatency + 10 * Millisecond)
              | none => t + env.persistLatency + 10 * Millisecond)
        ∧ ((∀ p, env.ctx.deadline = some p → t + env.persistLatency + 10 * Millisecond ≤ p) →
            (WithTimeout env.ctx (t + env.persistLatency) (10 * Millisecond)).deadline
              = some (t + env.persistLatency + 10 * Millisecond)
            ∧ ∀ u, u < t + env.persistLatency + 10 * Millisecond →
                (WithTimeout env.ctx (t + env.persistLatency) (10 * Millisecond)).Err u
                  ≠ some .DeadlineExceeded) := by
  refine ⟨?_, ?_⟩
  · intro latency wait v hup hbid hcancel
    have hErr := WithTimeout_Err_not_canceled env.ctx env.start (200 * Millisecond)
      (env.start + latency + wait) hcancel
    refine ⟨?_, ?_⟩
    · intro hlt
      rw [if_neg (by omega)] at hErr
      have hfetch := obterCotacaoAPI_on_time _ env.start latency wait v hErr hbid
      rw [← hup] at hfetch
      exact ⟨hfetch, handleCotacao_fetched_status env _ _ hfetch⟩
    · intro hge
      rw [if_pos hge] at hErr
      obtain ⟨err, t, hfetch, his⟩ := obterCotacaoAPI_late _ env.start latency wait (.ok v) hErr
      rw [← hup] at hfetch
      exact handleCotacao_deadline_error env err t hfetch his
  · intro b t hfetch
    refine ⟨handleCotacao_persist_call env b t hfetch, rfl, ?_⟩
    intro hreq
    have hdl : (WithTimeout env.ctx (t + env.persistLatency) (10 * Millisecond)).deadline
        = some (t + env.persistLatency + 10 * Millisecond) := by
      simp only [WithTimeout]
      cases hd : env.ctx.deadline with
      | none => rfl
      | some p =>
        have := hreq p hd
        simp only [Option.some.injEq]
        omega
    refine ⟨hdl, ?_⟩
    intro u hu
    apply Context.Err_before_deadline
    intro d hd
    rw [hdl] at hd
    injection hd with hd
    omega

/-- C10, on a sample: a request without a deadline; the upstream answers 1ns
before the 200ms fetch deadline and the database needs 1ns less than 10ms.  The
status is 200 and the row is inserted, which a persist context bounded by the
fetch deadline would not allow; an answer at the fetch deadline itself gets
408. -/
theorem handleCotacao_deadlines_witness :
    (handleCotacao { sample (answers (200 * Millisecond - 1) 200 "5.43") 0 with
        exec := execSlow (10 * Millisecond - 1) }).w.response.status = 200
    ∧ (handleCotacao { sample (answers (200 * Millisecond - 1) 200 "5.43") 0 with
        exec := execSlow (10 * Millisecond - 1) }).rows = ["5.40", "5.43"]
    ∧ (execSlow (10 * Millisecond - 1) (WithTimeout Background 0 (200 * Millisecond))
        199999999 "INSERT INTO cotacoes(bid) VALUES(?)" "5.43" ["5.40"])
        = (some "context deadline exceeded", ["5.40"])
    ∧ (handleCotacao { sample (answers (200 * Millisecond) 200 "5.43") 0 with
        exec := execSlow (10 * Millisecond - 1) }).w.response.status = 408 :=
  ⟨((handleCotacao_deadlines { sample (answers (200 * Millisecond - 1) 200 "5.43") 0 with
        exec := execSlow (10 * Millisecond - 1) }).1 199999999 0
        { USDBRL := { Bid := "5.43" } } rfl (by decide) rfl).1 (by decide) |>.2,
    ((handleCotacao_deadlines { sample (answers (200 * Millisecond - 1) 200 "5.43") 0 with
        exec := execSlow (10 * Millisecond - 1) }).2 "5.43" 199999999 rfl).1,
    by decide,
    ((handleCotacao_deadlines { sample (answers (200 * Millisecond) 200 "5.43") 0 with
        exec := execSlow (10 * Millisecond - 1) }).1 200000000 0
        { USDBRL := { Bid := "5.43" } } rfl (by decide) rfl).2 (by decide) |>.1⟩

end Server

namespace Client

/-! ## Claims about the client -/

/-- C6: for every bid `b` and every prior state of the files, after
`salvarCotacaoArquivo(b)` succeeds the content of the output file is exactly
the bytes of `"Dólar: " ++ b ++ "\n"`, and no other file has changed. -/
theorem salvarCotacaoArquivo_overwrites (fs : FS) (fault : WriteFault) (b : String)
    (hok : (salvarCotacaoArquivo fs fault b).2.1 = none) :
    (salvarCotacaoArquivo fs fault b).1 arquivo = some (bytes ("Dólar: " ++ b ++ "\n"))
    ∧ ∀ name, name ≠ arquivo → (salvarCotacaoArquivo fs fault b).1 name = fs name := by
  cases fault with
  | openFails msg => simp [salvarCotacaoArquivo, WriteFile] at hok
  | writeFails msg left => simp [salvarCotacaoArquivo, WriteFile] at hok
  | none =>
    refine ⟨by simp [salvarCotacaoArquivo, WriteFile], ?_⟩
    intro name hname
    simp [salvarCotacaoArquivo, WriteFile, hname]

/-- C6, on a sample: a first run with `5.00` in an empty directory, then a run
with `5.10`; the file holds the 13 bytes of `Dólar: 5.10` and a newline. -/
theorem salvarCotacaoArquivo_overwrites_witness :
    (salvarCotacaoArquivo noFiles .none "5.00").1 arquivo
      = some [68, 195, 179, 108, 97, 114, 58, 32, 53, 46, 48, 48, 10]
    ∧ (salvarCotacaoArquivo (salvarCotacaoArquivo noFiles .none "5.00").1 .none "5.10").2.1
      = none
    ∧ (salvarCotacaoArquivo (salvarCotacaoArquivo noFiles .none "5.00").1 .none "5.10").1 arquivo
      = some [68, 195, 179, 108, 97, 114, 58, 32, 53, 46, 49, 48, 10] :=
  ⟨by decide, by decide,
    (salvarCotacaoArquivo_overwrites (salvarCotacaoArquivo noFiles .none "5.00").1 .none "5.10"
      (by decide)).1⟩

/-- The function `buscarCotacaoServidor` succeeds only when the server answers
before the deadline with status 200 and a body that arrives before the
deadline, decodes, and holds a non-empty bid: a deadline exceeded, a transport
error, another status, an undecodable body and an empty bid all end in an
error. -/
theorem buscarCotacaoServidor_ok_inv (ctx : Context) (now : Nat)
    (server : Peer CotacaoResponse) (b : String)
    (h : buscarCotacaoServidor ctx now server = .ok b) :
    ∃ latency wait, server = .responds latency StatusOK
        { latency := wait, decoded := .ok { Bid := b } }
      ∧ b ≠ "" ∧ ctx.Err (now + latency) = none ∧ ctx.Err (now + latency + wait) = none := by
  cases server with
  | fails latency msg =>
    simp only [buscarCotacaoServidor, Do] at h
    cases hE : ctx.Err (now + latency) <;> rw [hE] at h <;> simp only at h <;>
      split at h <;> cases h
  | responds latency status body =>
    obtain ⟨wait, decoded⟩ := body
    simp only [buscarCotacaoServidor, Do] at h
    cases hE : ctx.Err (now + latency) with
    | some e => rw [hE] at h; simp only at h; split at h <;> cases h
    | none =>
      rw [hE] at h
      simp only at h
      by_cases hst : status ≠ StatusOK
      · rw [if_pos hst] at h; cases h
      · rw [if_neg hst] at h
        simp only [Decode] at h
        cases hE₂ : ctx.Err (now + latency + wait) with
        | some e => rw [hE₂] at h; cases h
        | none =>
          rw [hE₂] at h
          cases decoded with
          | error msg => cases h
          | ok v =>
            simp only at h
            by_cases hb : v.Bid = ""
            · rw [if_pos hb] at h; cases h
            · rw [if_neg hb] at h
              injection h with h
              subst h
              exact ⟨latency, wait, by rw [not_not.mp hst], hb, hE, hE₂⟩

/-- C7: for every run in which `buscarCotacaoServidor` returns an error, `main`
does not call `salvarCotacaoArquivo` and the files are left as they were. -/
theorem main_failure_leaves_files (env : World) (err : Error)
    (hfail : buscarCotacaoServidor (WithTimeout Background env.start (300 * Millisecond))
      env.start env.server = .error err) :
    (main env).saved = [] ∧ (main env).fs = env.fs := by
  unfold main
  simp only [hfail, and_self]

/-- C7, on a sample: the server answers with status 503 while the output file
holds an earlier quote and a write would break off; the file keeps its
content. -/
theorem main_failure_leaves_files_witness :
    buscarCotacaoServidor (WithTimeout Background 0 (300 * Millisecond)) 0
        (answers (50 * Millisecond) 503 0 "5.43")
      = .error (.errorf "servidor retornou status: 503")
    ∧ (main { start := 0, server := answers (50 * Millisecond) 503 0 "5.43",
              fs := (salvarCotacaoArquivo noFiles .none "5.00").1,
              fault := .writeFails "no space left on device" [] }).saved = []
    ∧ (main { start := 0, server := answers (50 * Millisecond) 503 0 "5.43",
              fs := (salvarCotacaoArquivo noFiles .none "5.00").1,
              fault := .writeFails "no space left on device" [] }).fs
        = (salvarCotacaoArquivo noFiles .none "5.00").1 :=
  ⟨rfl, main_failure_leaves_files
    { start := 0, server := answers (50 * Millisecond) 503 0 "5.43",
      fs := (salvarCotacaoArquivo noFiles .none "5.00").1,
      fault := .writeFails "no space left on device" [] }
    (.errorf "servidor retornou status: 503") rfl⟩

/-- When the deadline fires while the client waits for the response, the error
of `buscarCotacaoServidor` is the timeout message. -/
theorem buscarCotacaoServidor_timeout_waiting (ctx : Context) (now latency status : Nat)
    (body : Body CotacaoResponse)
    (h : ctx.Err (now + latency) = some .DeadlineExceeded) :
    buscarCotacaoServidor ctx now (.responds latency status body)
      = .error (.errorf "timeout de 300ms exedido na requisição ao servidor") := by
  have hend := Context.Err_endedAt ctx now (now + latency) _ h 0
  simp only [Nat.add_zero] at hend
  simp only [buscarCotacaoServidor, Do, h, hend, if_true]

/-- The message of a transport error that is not the timeout differs from the
timeout message. -/
theorem transport_message_ne_timeout (err : Error) :
    (Error.wrap "erro na requisição HTTP: " err).text
      ≠ "timeout de 300ms exedido na requisição ao servidor" := by
  intro h
  have := congrArg String.data h
  simp [Error.text, String.data_append] at this

/-- C8 fails on the code: the server sends its header after 250ms and the body
100ms later, so the 300ms deadline fires while the client reads the body; the
error returned is the decoding error wrapping `context.DeadlineExceeded`, not
the timeout message that the same deadline produces while the client waits for
the header. -/
theorem buscarCotacaoServidor_timeout_reading_body :
    buscarCotacaoServidor (WithTimeout Background 0 (300 * Millisecond)) 0
        (answers (250 * Millisecond) 200 (100 * Millisecond) "5.43")
      = .error (.wrap "erro ao deserializar JSON: " (.ctx .DeadlineExceeded))
    ∧ (Error.wrap "erro ao deserializar JSON: " (.ctx .DeadlineExceeded)).Is .DeadlineExceeded
      = true
    ∧ (Error.wrap "erro ao deserializar JSON: " (.ctx .DeadlineExceeded)).text
      = "erro ao deserializar JSON: context deadline exceeded"
    ∧ (Error.wrap "erro ao deserializar JSON: " (.ctx .DeadlineExceeded)).text
      ≠ "timeout de 300ms exedido na requisição ao servidor"
    ∧ buscarCotacaoServidor (WithTimeout Background 0 (300 * Millisecond)) 0
        (answers (350 * Millisecond) 200 0 "5.43")
      = .error (.errorf "timeout de 300ms exedido na requisição ao servidor") :=
  ⟨rfl, rfl, by decide, by decide, rfl⟩

/-- C9 fails on the code: after a successful run in an empty directory there is
no file `cotacao.txt`; the quote is in `contacao.txt`, while the line logged
names `cotacao.txt`. -/
theorem main_writes_contacao_txt :
    (main { start := 0, server := answers (250 * Millisecond) 200 0 "5.43", fs := noFiles,
            fault := .none }).fs "cotacao.txt" = none
    ∧ (main { start := 0, server := answers (250 * Millisecond) 200 0 "5.43", fs := noFiles,
              fault := .none }).fs "contacao.txt"
        = some [68, 195, 179, 108, 97, 114, 58, 32, 53, 46, 52, 51, 10]
    ∧ (main { start := 0, server := answers (250 * Millisecond) 200 0 "5.43", fs := noFiles,
              fault := .none }).log = ["Arquivo cotacao.txt salvo com sucesso"]
    ∧ (main { start := 0, server := answers (250 * Millisecond) 200 0 "5.43", fs := noFiles,
              fault := .none }).saved = ["5.43"] :=
  ⟨by decide, by decide, by decide, by decide⟩

end Client

end Cotacao
